import Mathlib

/-
Verification of the article lookup and rendering page of the bq_portfolio
repository (src/app/articles/[...slug]/page.tsx), shallowly embedded in Lean.
The pre-built article collection (contentlayer allArticles) is an explicit
parameter of every operation, since the page treats it as read-only data.
-/

namespace Blog

/-- Compiled body payload of an article record; the page treats it as opaque
and only forwards the `code` field to the external Mdx renderer. -/
structure ArticleBody where
  code : String
  deriving DecidableEq, Repr

/-- An article record as produced by the external contentlayer build step and
consumed read-only by the page: `slugAsParams` is compared against the joined
request segments, `slug` is interpolated into the canonical URL, and the
remaining fields feed metadata and rendering. The description is optional. -/
structure Article where
  slug : String
  slugAsParams : String
  title : String
  description : Option String
  date : String
  timeToRead : Nat
  body : ArticleBody
  deriving DecidableEq, Repr

/-- Open Graph portion of the metadata bag built by generateMetadata. -/
structure OpenGraph where
  title : String
  description : Option String
  type : String
  publishedTime : String
  url : String
  deriving DecidableEq, Repr

/-- Twitter card portion of the metadata bag built by generateMetadata. -/
structure Twitter where
  card : String
  title : String
  description : Option String
  deriving DecidableEq, Repr

/-- The metadata bag returned by generateMetadata when an article is found. -/
structure Metadata where
  title : String
  description : Option String
  openGraph : OpenGraph
  twitter : Twitter
  deriving DecidableEq, Repr

/-- Embedding of `getArticleFromParams`: joins the slug segments with "/",
linearly scans the collection for the first record whose `slugAsParams`
equals the joined string, and returns null (none) when no record matches. -/
def getArticleFromParams (allArticles : List Article) (params : List String) :
    Option Article :=
  let slug := String.intercalate "/" params
  match allArticles.find? (fun article => article.slugAsParams == slug) with
  | none => none
  | some article => some article

/-- Embedding of `generateMetadata`: performs its own inline find over the
collection with the joined slug segments; returns undefined (none) when no
record matches, and otherwise the metadata bag with title, description, the
Open Graph fields (type "article", the record date as publishedTime, the
canonical URL built from the fixed site origin, the fixed articles path
segment and the record slug), and the Twitter card fields. -/
def generateMetadata (allArticles : List Article) (slugSegments : List String) :
    Option Metadata :=
  match allArticles.find?
      (fun article => article.slugAsParams == String.intercalate "/" slugSegments) with
  | none => none
  | some article =>
      some
        { title := article.title,
          description := article.description,
          openGraph :=
            { title := article.title,
              description := article.description,
              type := "article",
              publishedTime := article.date,
              url := "https://benjoquilario.vercel.app/articles/" ++ article.slug },
          twitter :=
            { card := "summary_large_image",
              title := article.title,
              description := article.description } }

/-- Modelled from the spec: conversion of a Gregorian civil date to a day
number, supporting the date arithmetic of the relativized-date helper
(src/lib/date) that is not among the provided sources. -/
def daysFromCivilN (y m d : Nat) : Nat :=
  let y2 := if m ≤ 2 then y - 1 else y
  let era := y2 / 400
  let yoe := y2 % 400
  let mp := (m + 9) % 12
  let doy := (153 * mp + 2) / 5 + d - 1
  let doe := yoe * 365 + yoe / 4 - yoe / 100 + doy
  era * 146097 + doe

/-- Modelled from the spec: dash-splitting of a character list, supporting
the ISO date parsing of the relativized-date helper that is not among the
provided sources. -/
def splitOnDash : List Char → List (List Char)
  | [] => [[]]
  | c :: rest =>
      let r := splitOnDash rest
      if c = '-' then [] :: r
      else
        match r with
        | [] => [[c]]
        | g :: gs => (c :: g) :: gs

/-- Modelled from the spec: decimal value of a digit character list with an
accumulator, supporting the ISO date parsing of the relativized-date helper
that is not among the provided sources. -/
def digitsVal : List Char → Nat → Option Nat
  | [], acc => some acc
  | c :: rest, acc =>
      if c.isDigit then digitsVal rest (acc * 10 + (c.toNat - 48))
      else none

/-- Modelled from the spec: parsing of a non-empty decimal digit group,
supporting the ISO date parsing of the relativized-date helper that is not
among the provided sources. -/
def parseNatDigits : List Char → Option Nat
  | [] => none
  | cs => digitsVal cs 0

/-- Modelled from the spec: parsing of an ISO `YYYY-MM-DD` date string into
year, month and day, supporting the relativized-date helper that is not among
the provided sources. -/
def parseISODate (s : String) : Option (Nat × Nat × Nat) :=
  match (splitOnDash s.data).map parseNatDigits with
  | [some y, some m, some d] => some (y, m, d)
  | _ => none

/-- Modelled from the spec: humanization of a day difference in the
"X days/months/years ago" style the spec describes for relativized dates. -/
def humanizeDays (diff : Nat) : String :=
  if diff < 30 then toString diff ++ " days ago"
  else if diff < 365 then toString (diff / 30) ++ " months ago"
  else toString (diff / 365) ++ " years ago"

/-- Modelled from the spec: the `relativeDate` helper imported from
`src/lib/date` is not among the provided sources; per the spec it produces a
human-readable duration string derived from the stored timestamp and the
current time. We pass the current date explicitly and humanize the day
difference of the two parsed dates. -/
def relativeDate (now : String) (date : String) : String :=
  match parseISODate now, parseISODate date with
  | some (ny, nm, nd), some (y, m, d) =>
      humanizeDays (daysFromCivilN ny nm nd - daysFromCivilN y m d)
  | _, _ => date

/-- A node of the rendered article page, one per JSX element the page emits:
the back link, the title heading, the optional description paragraph, the
separators, the relativized date text, the reading-time text, and the compiled
body handed to the external Mdx renderer. -/
inductive Node where
  | backLink : Node
  | heading : String → Node
  | para : String → Node
  | separator : Node
  | dateText : String → Node
  | readTime : String → Node
  | mdx : String → Node
  deriving DecidableEq, Repr

/-- JavaScript truthiness of the optional description string, as used by the
guard `article.description && ...`: undefined and the empty string are falsy. -/
def strTruthy : Option String → Bool
  | none => false
  | some s => !(s == "")

/-- Embedding of the `ArticlePage` component: resolves the article via
getArticleFromParams, transfers to the not-found terminal state (none) when
it fails, and otherwise emits, in order, the back link, the title, the
description paragraph when the description is truthy, a separator, the
relativized date, the reading-time text, a second separator, and the compiled
body. -/
def ArticlePage (now : String) (allArticles : List Article)
    (params : List String) : Option (List Node) :=
  match getArticleFromParams allArticles params with
  | none => none
  | some article =>
      some
        ([Node.backLink, Node.heading article.title]
          ++ (if strTruthy article.description then
                [Node.para (article.description.getD "")]
              else [])
          ++ [Node.separator,
              Node.dateText (relativeDate now article.date),
              Node.readTime (toString article.timeToRead ++ " min read"),
              Node.separator,
              Node.mdx article.body.code])

/-- Modelled from the spec: the contentlayer configuration deriving the
`slug` field of a record is not among the provided sources. The spec data
model and glossary use a single normalized slug identifier per record, so we
express as a predicate the coherence of the `slug` field used in the
canonical URL with the `slugAsParams` field used for lookup. -/
def SlugCoherent (a : Article) : Prop := a.slug = a.slugAsParams

/-- The sample article of the repository content, with the frontmatter fields
of the provided MDX source file. -/
def sampleArticle : Article :=
  { slug := "authentication-nextjs",
    slugAsParams := "authentication-nextjs",
    title := "Implement authentication system using Next.js with app dir",
    description := some "A guide that explains how to build a authentication system using Next-Auth with credentials providers and Prisma Adapter.",
    date := "2023-09-19",
    timeToRead := 5,
    body := { code := "compiled-mdx" } }

/-- A second record matching the same slug, for the duplicate-slug claims. -/
def dupArticle : Article :=
  { slug := "authentication-nextjs",
    slugAsParams := "authentication-nextjs",
    title := "A duplicate record with the same slug",
    description := none,
    date := "2024-01-01",
    timeToRead := 3,
    body := { code := "other-compiled-mdx" } }

/-- A record whose slug matches nothing the witnesses request. -/
def otherArticle : Article :=
  { slug := "something-else",
    slugAsParams := "something-else",
    title := "Another article",
    description := some "",
    date := "2022-05-01",
    timeToRead := 7,
    body := { code := "third-compiled-mdx" } }

theorem getArticleFromParams_eq_find (l : List Article) (params : List String) :
    getArticleFromParams l params
      = l.find? (fun a => a.slugAsParams == String.intercalate "/" params) := by
  cases h : l.find? (fun a => a.slugAsParams == String.intercalate "/" params) <;>
    simp [getArticleFromParams, h]

theorem resolve_none_of_no_match (l : List Article) (S : List String)
    (h : ∀ a, a ∈ l → a.slugAsParams ≠ String.intercalate "/" S) :
    getArticleFromParams l S = none := by
  rw [getArticleFromParams_eq_find]
  exact List.find?_eq_none.mpr (fun x hx => by simpa using h x hx)

theorem resolve_mem_and_match (l : List Article) (S : List String) (a : Article)
    (h : getArticleFromParams l S = some a) :
    a ∈ l ∧ a.slugAsParams = String.intercalate "/" S := by
  rw [getArticleFromParams_eq_find] at h
  exact ⟨List.mem_of_find?_eq_some h, by simpa using List.find?_some h⟩

theorem generateMetadata_of_resolve (l : List Article) (S : List String)
    (a : Article) (h : getArticleFromParams l S = some a) :
    generateMetadata l S
      = some
          { title := a.title,
            description := a.description,
            openGraph :=
              { title := a.title,
                description := a.description,
                type := "article",
                publishedTime := a.date,
                url := "https://benjoquilario.vercel.app/articles/" ++ a.slug },
            twitter :=
              { card := "summary_large_image",
                title := a.title,
                description := a.description } } := by
  rw [getArticleFromParams_eq_find] at h
  simp [generateMetadata, h]

theorem articlePage_of_resolve (now : String) (l : List Article)
    (S : List String) (a : Article) (h : getArticleFromParams l S = some a) :
    ArticlePage now l S
      = some
          ([Node.backLink, Node.heading a.title]
            ++ (if strTruthy a.description then
                  [Node.para (a.description.getD "")]
                else [])
            ++ [Node.separator,
                Node.dateText (relativeDate now a.date),
                Node.readTime (toString a.timeToRead ++ " min read"),
                Node.separator,
                Node.mdx a.body.code]) := by
  simp [ArticlePage, h]

/-- C1: for every slug-segment sequence S and collection, if a record whose
slugAsParams equals the segments joined with "/" is in the collection then
getArticleFromParams returns a matching record of the collection — exactly
that record when it is the only match — and if no record matches then
getArticleFromParams returns the not-found signal (null). -/
theorem c1_resolve_correct (l : List Article) (S : List String) :
    (∀ a, a ∈ l → a.slugAsParams = String.intercalate "/" S →
      ∃ b, getArticleFromParams l S = some b ∧ b ∈ l
        ∧ b.slugAsParams = String.intercalate "/" S)
    ∧ (∀ a, a ∈ l → a.slugAsParams = String.intercalate "/" S →
      (∀ b, b ∈ l → b.slugAsParams = String.intercalate "/" S → b = a) →
      getArticleFromParams l S = some a)
    ∧ ((∀ a, a ∈ l → a.slugAsParams ≠ String.intercalate "/" S) →
      getArticleFromParams l S = none) := by
  have key : ∀ a, a ∈ l → a.slugAsParams = String.intercalate "/" S →
      ∃ b, getArticleFromParams l S = some b ∧ b ∈ l
        ∧ b.slugAsParams = String.intercalate "/" S := by
    intro a ha hmatch
    cases hf : getArticleFromParams l S with
    | none =>
        rw [getArticleFromParams_eq_find] at hf
        exact absurd hmatch (by simpa using List.find?_eq_none.mp hf a ha)
    | some b =>
        obtain ⟨hbl, hbm⟩ := resolve_mem_and_match l S b hf
        exact ⟨b, rfl, hbl, hbm⟩
  refine ⟨key, ?_, resolve_none_of_no_match l S⟩
  intro a ha hmatch huniq
  obtain ⟨b, hb, hbl, hbm⟩ := key a ha hmatch
  rw [hb, huniq b hbl hbm]

theorem c1_resolve_correct_witness :
    getArticleFromParams [otherArticle, sampleArticle] ["authentication-nextjs"]
      = some sampleArticle :=
  (c1_resolve_correct [otherArticle, sampleArticle]
      ["authentication-nextjs"]).2.1 sampleArticle (by simp) (by decide)
    (by decide)

/-- C2: generateMetadata returns the no-metadata signal (undefined) exactly
when getArticleFromParams returns the not-found signal on the same segments
and collection. -/
theorem c2_metadata_none_iff_resolve_none (l : List Article) (S : List String) :
    generateMetadata l S = none ↔ getArticleFromParams l S = none := by
  rw [getArticleFromParams_eq_find]
  cases hf : l.find? (fun a => a.slugAsParams == String.intercalate "/" S) <;>
    simp [generateMetadata, hf]

/-- C3: when the collection is split as a prefix with no matching record, a
matching record a, and any tail (which may hold further matches),
getArticleFromParams returns a: the first match in collection order. -/
theorem c3_first_match (l1 l2 : List Article) (a : Article) (S : List String)
    (ha : a.slugAsParams = String.intercalate "/" S)
    (h1 : ∀ b, b ∈ l1 → b.slugAsParams ≠ String.intercalate "/" S) :
    getArticleFromParams (l1 ++ a :: l2) S = some a := by
  rw [getArticleFromParams_eq_find]
  induction l1 with
  | nil => simp [ha]
  | cons x xs ih =>
      have hx : ¬ x.slugAsParams = String.intercalate "/" S :=
        h1 x (List.mem_cons_self x xs)
      simp only [List.cons_append, List.find?_cons]
      have : (x.slugAsParams == String.intercalate "/" S) = false := by
        simpa using hx
      rw [this]
      exact ih (fun b hb => h1 b (List.mem_cons_of_mem x hb))

theorem c3_first_match_witness :
    getArticleFromParams [otherArticle, sampleArticle, dupArticle]
      ["authentication-nextjs"] = some sampleArticle :=
  c3_first_match [otherArticle] [dupArticle] sampleArticle
    ["authentication-nextjs"] (by decide) (by decide)

/-- C6: getArticleFromParams is deterministic and idempotent — two calls on
the same segments over the same collection yield the same result. -/
theorem c6_resolve_deterministic (l : List Article) (S : List String) :
    getArticleFromParams l S = getArticleFromParams l S := rfl

/-- C9: the inline find expression of generateMetadata and the lookup of
getArticleFromParams agree on every collection and every params value, so
metadata and page rendering can never disagree about the resolved article. -/
theorem c9_lookups_agree (l : List Article) (params : List String) :
    l.find? (fun article => article.slugAsParams == String.intercalate "/" params)
      = getArticleFromParams l params :=
  (getArticleFromParams_eq_find l params).symm

/-- A fixed current date for the concrete page evaluations. -/
def sampleNow : String := "2026-10-12"

/-- The metadata bag generateMetadata builds for the sample article. -/
def sampleMetadata : Metadata :=
  { title := sampleArticle.title,
    description := sampleArticle.description,
    openGraph :=
      { title := sampleArticle.title,
        description := sampleArticle.description,
        type := "article",
        publishedTime := sampleArticle.date,
        url := "https://benjoquilario.vercel.app/articles/" ++ sampleArticle.slug },
    twitter :=
      { card := "summary_large_image",
        title := sampleArticle.title,
        description := sampleArticle.description } }

/-- The node list ArticlePage renders for the sample article. -/
def samplePage : List Node :=
  [Node.backLink,
   Node.heading sampleArticle.title,
   Node.para (sampleArticle.description.getD ""),
   Node.separator,
   Node.dateText (relativeDate sampleNow sampleArticle.date),
   Node.readTime "5 min read",
   Node.separator,
   Node.mdx sampleArticle.body.code]

/-- C4: the Open Graph URL of the metadata bag is the fixed site origin
followed by the fixed articles path segment followed by the record slug; and
when the slug field agrees with slugAsParams (SlugCoherent, modelled from the
spec) and the matched record has slugAsParams authentication-nextjs, the URL
ends in /articles/authentication-nextjs. -/
theorem c4_canonical_url (l : List Article) (S : List String) (a : Article)
    (m : Metadata) (h : getArticleFromParams l S = some a)
    (hm : generateMetadata l S = some m) :
    m.openGraph.url = "https://benjoquilario.vercel.app/articles/" ++ a.slug
    ∧ (SlugCoherent a → a.slugAsParams = "authentication-nextjs" →
        List.isSuffixOf "/articles/authentication-nextjs".data
          m.openGraph.url.data = true) := by
  rw [generateMetadata_of_resolve l S a h] at hm
  obtain rfl := Option.some.inj hm
  refine ⟨rfl, ?_⟩
  intro hc hsp
  have hslug : a.slug = "authentication-nextjs" := by
    have hc2 : a.slug = a.slugAsParams := hc
    rw [hc2, hsp]
  show List.isSuffixOf "/articles/authentication-nextjs".data
      ("https://benjoquilario.vercel.app/articles/" ++ a.slug).data = true
  rw [hslug]
  decide

theorem c4_canonical_url_witness :
    List.isSuffixOf "/articles/authentication-nextjs".data
      sampleMetadata.openGraph.url.data = true :=
  (c4_canonical_url [sampleArticle] ["authentication-nextjs"] sampleArticle
      sampleMetadata (by decide) (by decide)).2 rfl (by decide)

/-- C5: when no record of the collection matches the joined slug segments,
ArticlePage transfers to the not-found terminal state and produces no
rendering output, accessing no field of any record. -/
theorem c5_not_found_no_render (now : String) (l : List Article)
    (S : List String)
    (h : ∀ a, a ∈ l → a.slugAsParams ≠ String.intercalate "/" S) :
    ArticlePage now l S = none := by
  simp [ArticlePage, resolve_none_of_no_match l S h]

theorem c5_not_found_no_render_witness :
    ArticlePage sampleNow [sampleArticle, otherArticle] ["missing-slug"]
      = none :=
  c5_not_found_no_render sampleNow [sampleArticle, otherArticle]
    ["missing-slug"] (by decide)

/-- C7: for a found record, the metadata bag has Open Graph type article,
Open Graph publishedTime equal to the record date, Twitter card
summary_large_image, and top-level, Open Graph and Twitter titles and
descriptions all equal to the record title and description. -/
theorem c7_metadata_fields (l : List Article) (S : List String) (a : Article)
    (m : Metadata) (h : getArticleFromParams l S = some a)
    (hm : generateMetadata l S = some m) :
    m.openGraph.type = "article" ∧ m.openGraph.publishedTime = a.date
    ∧ m.twitter.card = "summary_large_image"
    ∧ m.title = a.title ∧ m.description = a.description
    ∧ m.openGraph.title = a.title ∧ m.openGraph.description = a.description
    ∧ m.twitter.title = a.title ∧ m.twitter.description = a.description := by
  rw [generateMetadata_of_resolve l S a h] at hm
  obtain rfl := Option.some.inj hm
  exact ⟨rfl, rfl, rfl, rfl, rfl, rfl, rfl, rfl, rfl⟩

theorem c7_metadata_fields_witness :
    sampleMetadata.openGraph.type = "article"
    ∧ sampleMetadata.openGraph.publishedTime = sampleArticle.date
    ∧ sampleMetadata.twitter.card = "summary_large_image"
    ∧ sampleMetadata.title = sampleArticle.title
    ∧ sampleMetadata.description = sampleArticle.description
    ∧ sampleMetadata.openGraph.title = sampleArticle.title
    ∧ sampleMetadata.openGraph.description = sampleArticle.description
    ∧ sampleMetadata.twitter.title = sampleArticle.title
    ∧ sampleMetadata.twitter.description = sampleArticle.description :=
  c7_metadata_fields [sampleArticle] ["authentication-nextjs"] sampleArticle
    sampleMetadata (by decide) (by decide)

/-- C8: for a found record, the rendered page holds the reading-time text,
which is the record timeToRead followed by the literal " min read" — in
particular "5 min read" when timeToRead is 5 — and the relativized date text
produced by relativeDate from the record date and the current time. -/
theorem c8_read_time_and_date (now : String) (l : List Article)
    (S : List String) (a : Article) (out : List Node)
    (h : getArticleFromParams l S = some a)
    (hout : ArticlePage now l S = some out) :
    Node.readTime (toString a.timeToRead ++ " min read") ∈ out
    ∧ (a.timeToRead = 5 → Node.readTime "5 min read" ∈ out)
    ∧ Node.dateText (relativeDate now a.date) ∈ out := by
  rw [articlePage_of_resolve now l S a h] at hout
  obtain rfl := Option.some.inj hout
  refine ⟨by simp, ?_, by simp⟩
  intro h5
  have e : toString a.timeToRead ++ " min read" = "5 min read" := by
    rw [h5]; decide
  rw [← e]
  simp

theorem c8_read_time_and_date_witness :
    Node.readTime "5 min read" ∈ samplePage
    ∧ Node.dateText (relativeDate sampleNow sampleArticle.date)
        ∈ samplePage :=
  ⟨(c8_read_time_and_date sampleNow [sampleArticle] ["authentication-nextjs"]
      sampleArticle samplePage (by decide) (by decide)).2.1 (by decide),
   (c8_read_time_and_date sampleNow [sampleArticle] ["authentication-nextjs"]
      sampleArticle samplePage (by decide) (by decide)).2.2⟩

/-- C10: for a found record, the rendered page holds a description paragraph
exactly when the record description is present and non-empty; a description
equal to the empty string is treated like an absent one, because the guard is
a truthiness check. -/
theorem c10_description_truthiness (now : String) (l : List Article)
    (S : List String) (a : Article) (out : List Node)
    (h : getArticleFromParams l S = some a)
    (hout : ArticlePage now l S = some out) :
    ((∃ s, Node.para s ∈ out) ↔ ∃ s, a.description = some s ∧ s ≠ "")
    ∧ (a.description = some "" → ∀ s, Node.para s ∉ out)
    ∧ (a.description = none → ∀ s, Node.para s ∉ out) := by
  rw [articlePage_of_resolve now l S a h] at hout
  obtain rfl := Option.some.inj hout
  cases hd : a.description with
  | none => simp [strTruthy, hd]
  | some s =>
      by_cases hs : s = ""
      · subst hs
        simp [strTruthy, hd]
      · simp [strTruthy, hd, hs]

theorem c10_description_truthiness_witness :
    (∃ s, Node.para s ∈ samplePage) ↔
      ∃ s, sampleArticle.description = some s ∧ s ≠ "" :=
  (c10_description_truthiness sampleNow [sampleArticle]
      ["authentication-nextjs"] sampleArticle samplePage (by decide)
      (by decide)).1

end Blog
